import Mathlib

/-!
Verification of the item-combination engine of `lab_sim.py`.

The definitions below are a shallow embedding of the `combine_items.execute`
tool (and the helpers it relies on): the inventory data model, the operand
scan loop, mixture flattening, the pairwise reaction loop with restriction
digestion, the keep/strike deduplication pass, and the final mixture build.
Strings of nucleotides are modelled as `List Char`; JSON dictionaries become
a closed sum type `Item` tagged exactly as the serialized records are.
-/

namespace LabSim

/-- Inventory items, one constructor per `type` tag of the serialized JSON
records (`Reagent`, `DNA`, `RestrictionEnzyme`, `Mixture`). -/
inductive Item where
  | reagent (id : Nat) (name : String) (quantity : String)
  | dna (id : Nat) (sequence : List Char)
  | enzyme (id : Nat) (name : String)
  | mixture (id : Nat) (contents : List Item)
deriving Repr

/-- The common `"ID"` field of every item record. -/
def Item.ID : Item → Nat
  | .reagent i _ _ => i
  | .dna i _ => i
  | .enzyme i _ => i
  | .mixture i _ => i

/-- The `"type"` tag of an item record. -/
def Item.typeTag : Item → String
  | .reagent .. => "Reagent"
  | .dna .. => "DNA"
  | .enzyme .. => "RestrictionEnzyme"
  | .mixture .. => "Mixture"

/-- Dictionary access `entry["name"]`: present on reagents and enzymes. -/
def Item.nameAttr : Item → Option String
  | .reagent _ n _ => some n
  | .enzyme _ n => some n
  | _ => none

/-- Dictionary access `entry["sequence"]`; in the digestion branch the
strand is always a DNA item, so the default for other variants is never
reached by `combine`. -/
def Item.seqAttr : Item → List Char
  | .dna _ s => s
  | _ => []

/-- The external inventory document: `{"cur_id": ..., "inventory": [...]}`. -/
structure Inventory where
  curId : Nat
  items : List Item
deriving Repr

/-! ### Digestion: `re.finditer` over a literal pattern, cut points, slicing -/

/-- Does the literal pattern `pat` occur in `s` at position `i`? -/
def isMatchAt (pat s : List Char) (i : Nat) : Bool :=
  (s.drop i).take pat.length == pat

/-- Left-to-right scan for non-overlapping occurrences of the literal
pattern, as `re.finditer` performs on a metacharacter-free pattern: after a
match at `i` the scan resumes at `i + pat.length`, otherwise at `i + 1`.
The fuel argument only bounds the scan; `s.length + 1` steps always
suffice since the position strictly increases and the scan stops past
`s.length`. -/
def finditerAux (pat s : List Char) : Nat → Nat → List Nat
  | _, 0 => []
  | i, fuel + 1 =>
    if i ≤ s.length then
      if isMatchAt pat s i then
        i :: finditerAux pat s (i + max pat.length 1) fuel
      else
        finditerAux pat s (i + 1) fuel
    else []

/-- Start positions of all non-overlapping matches of `pat` in `s`
(`[m.start() for m in re.finditer(cut_site, dna_seq)]`). -/
def finditer (pat s : List Char) : List Nat :=
  finditerAux pat s 0 (s.length + 1)

/-- The EcoR1 recognition sequence, the only entry of the cut-site table. -/
def ecoR1Site : List Char := "GAATTC".toList

/-- `cut_site = "GAATTC" if restriction_enzyme["name"] == "EcoR1" else None`;
`none` models the Python `None` that later crashes `re.finditer`. -/
def cutSiteOf (e : Item) : Option (List Char) :=
  if e.nameAttr == some "EcoR1" then some ecoR1Site else none

/-- Python slice `s[a:b]` for nonnegative bounds. -/
def pySlice (s : List Char) (a b : Nat) : List Char :=
  (s.take b).drop a

/-- `cut_positions = [0] + [m.start() + 1 for m in re.finditer(...)] + [len(dna_seq)]`. -/
def cutList (pat s : List Char) : List Nat :=
  0 :: ((finditer pat s).map (· + 1) ++ [s.length])

/-- `fragments = [dna_seq[cut_positions[i]:cut_positions[i+1]] for i in range(len(cut_positions)-1)]`. -/
def digest (pat s : List Char) : List (List Char) :=
  (List.zip (cutList pat s) (cutList pat s).tail).map fun q => pySlice s q.1 q.2

/-! ### Flattening and pairwise enumeration -/

/-- Lines 142–149: a Mixture contributes its `contents`, any other item
contributes itself. -/
def flattenOne : Item → List Item
  | .mixture _ contents => contents
  | i => [i]

/-- `list(combinations(contents, 2))`: every unordered pair of distinct
positions, in the order `itertools.combinations` yields them. -/
def pairsOf : List Item → List (Item × Item)
  | [] => []
  | x :: xs => xs.map (fun y => (x, y)) ++ pairsOf xs

/-! ### The reaction loop -/

/-- The loop state of lines 151–184: the keep-candidate list, the struck
entries and the running ID counter.  `created` is a ghost field recording,
in creation order, the IDs handed to freshly materialized fragment items
(line 179); it changes no decision of the loop. -/
structure ReactState where
  keep : List Item
  strike : List Item
  created : List Nat
  cur : Nat
deriving Repr

/-- `"RestrictionEnzyme" in types and "DNA" in types` for
`types = [pair[0]["type"], pair[1]["type"]]`. -/
def reacts (p : Item × Item) : Bool :=
  let types := [p.1.typeTag, p.2.typeTag]
  types.contains "RestrictionEnzyme" && types.contains "DNA"

/-- One iteration of the pair loop (lines 153–184).  Both members are
unconditionally appended to the keep candidates; an enzyme/DNA pair then
digests.  When the enzyme's name has no cut-site entry the Python code
reaches `re.finditer(None, dna_seq)`, which raises `TypeError`; that
uncaught exception is the `.error` outcome. -/
def stepPair (st : ReactState) (p : Item × Item) : Except Unit ReactState :=
  let keep1 := st.keep ++ [p.1, p.2]
  if reacts p then
    let enz := if p.1.typeTag == "RestrictionEnzyme" then p.1 else p.2
    let strand := if p.1.typeTag == "RestrictionEnzyme" then p.2 else p.1
    match cutSiteOf enz with
    | none => .error ()
    | some site =>
      let frags := digest site strand.seqAttr
      let fragProds := frags.enum.map fun q => Item.dna (st.cur + q.1) q.2
      .ok ⟨keep1 ++ fragProds ++ [enz],
           st.strike ++ [strand],
           st.created ++ (List.range frags.length).map (st.cur + ·),
           st.cur + frags.length⟩
  else
    .ok ⟨keep1, st.strike, st.created, st.cur⟩

/-- The whole pair loop; the first unrecognized-enzyme digestion aborts the
call with the uncaught `TypeError`. -/
def reactLoop : List (Item × Item) → ReactState → Except Unit ReactState
  | [], st => .ok st
  | p :: ps, st =>
    match stepPair st p with
    | .error e => .error e
    | .ok st' => reactLoop ps st'

/-! ### Deduplication (lines 186–195) -/

/-- Walk the keep candidates with a seen-ID list seeded from the struck
IDs: include an entry only if its ID is unseen, and mark it seen. -/
def dedupLoop : List Item → List Nat → List Item
  | [], _ => []
  | e :: es, seen =>
    if e.ID ∈ seen then dedupLoop es seen
    else e :: dedupLoop es (seen ++ [e.ID])

/-- The deduplication pass producing the final mixture contents. -/
def dedup (keep : List Item) (strikeIds : List Nat) : List Item :=
  dedupLoop keep strikeIds

/-! ### Operand scan and the full combine operation -/

/-- One iteration of the operand scan loop (lines 129–135): a later match
overwrites an earlier one, and only non-matching entries are kept. -/
def scanStep (id1 id2 : Nat) (acc : Option Item × Option Item × List Item)
    (e : Item) : Option Item × Option Item × List Item :=
  if e.ID == id1 then (some e, acc.2.1, acc.2.2)
  else if e.ID == id2 then (acc.1, some e, acc.2.2)
  else (acc.1, acc.2.1, acc.2.2 ++ [e])

/-- The operand scan: `id1_entry`, `id2_entry` and `new_inventory_entries`
after the loop of lines 127–135. -/
def scanEntries (items : List Item) (id1 id2 : Nat) :
    Option Item × Option Item × List Item :=
  items.foldl (scanStep id1 id2) (none, none, [])

/-- The outcome of one `combine_items.execute` call. -/
inductive CombineOutcome where
  | invalidId
  | typeError
  | ok (inv : Inventory)
deriving Repr

/-- The full combine operation on the inventory document:
operand scan, invalid-ID early return, flattening of both operands,
the pair loop, deduplication seeded from the struck IDs, and the new
Mixture appended after the untouched entries (lines 120–207).
`.invalidId` is the early error return, `.typeError` the uncaught
exception from a cut-site-less digestion, and `.ok` carries the document
written back. -/
def combine (inv : Inventory) (id1 id2 : Nat) : CombineOutcome :=
  match scanEntries inv.items id1 id2 with
  | (some i1, some i2, rest) =>
    let pool := flattenOne i1 ++ flattenOne i2
    match reactLoop (pairsOf pool) ⟨[], [], [], inv.curId⟩ with
    | .error _ => .typeError
    | .ok st =>
      let strikeIds := st.strike.map Item.ID
      let finals := dedup st.keep strikeIds
      .ok ⟨st.cur + 1, rest ++ [Item.mixture st.cur finals]⟩
  | _ => .invalidId

/-- The external inventory document after the call: `write_file` happens
only on the success path, so any other outcome leaves the store intact. -/
def combineStore (inv : Inventory) (id1 id2 : Nat) : Inventory :=
  match combine inv id1 id2 with
  | .ok inv' => inv'
  | _ => inv

/-- The text of the invalid-ID early return. -/
def invalidMsg : String :=
  "One of the IDs you gave was not valid. Check the inventory to see if it exists."

/-- The string returned to the caller; `none` when the call dies with the
uncaught exception. -/
def combineReply (inv : Inventory) (id1 id2 : Nat) : Option String :=
  match combine inv id1 id2 with
  | .invalidId => some invalidMsg
  | .typeError => none
  | .ok _ => some "The two items have been combined"

/-- The IDs assigned to newly created items by a successful call, in
creation order: every digestion fragment's ID followed by the wrapping
Mixture's ID. -/
def combineCreated (inv : Inventory) (id1 id2 : Nat) : Option (List Nat) :=
  match scanEntries inv.items id1 id2 with
  | (some i1, some i2, _) =>
    match reactLoop (pairsOf (flattenOne i1 ++ flattenOne i2)) ⟨[], [], [], inv.curId⟩ with
    | .error _ => none
    | .ok st => some (st.created ++ [st.cur])
  | _ => none

/-- Specification-side count of the fragments one pair contributes: the
number of slices of the strand's sequence when the pair digests, zero for
a pair that does not react. -/
def pairFragCount (p : Item × Item) : Nat :=
  if reacts p then
    match cutSiteOf (if p.1.typeTag == "RestrictionEnzyme" then p.1 else p.2) with
    | none => 0
    | some site =>
      (digest site (if p.1.typeTag == "RestrictionEnzyme" then p.2 else p.1).seqAttr).length
  else 0

/-- Specification-side count of all fragments a content pool produces. -/
def totalFragments (pool : List Item) : Nat :=
  ((pairsOf pool).map pairFragCount).sum

/-! ### Lemmas about the operand scan -/

theorem scan_rest (id1 id2 : Nat) :
    ∀ (l : List Item) (acc : Option Item × Option Item × List Item),
      (l.foldl (scanStep id1 id2) acc).2.2 =
        acc.2.2 ++ l.filter (fun e => !(e.ID == id1) && !(e.ID == id2)) := by
  intro l
  induction l with
  | nil => intro acc; simp
  | cons e l ih =>
    intro acc
    cases h1 : (e.ID == id1) with
    | true =>
      simp only [List.foldl_cons, ih, scanStep, h1, if_true, List.filter_cons]
      simp [h1]
    | false =>
      cases h2 : (e.ID == id2) with
      | true =>
        simp only [List.foldl_cons, ih, scanStep, h1, h2, List.filter_cons]
        simp [h1, h2]
      | false =>
        simp only [List.foldl_cons, ih, scanStep, h1, h2, List.filter_cons]
        simp [h1, h2]

theorem scanStep_fst_of_ne (id1 id2 : Nat) (acc : Option Item × Option Item × List Item)
    (e : Item) (he : (e.ID == id1) = false) :
    (scanStep id1 id2 acc e).1 = acc.1 := by
  unfold scanStep
  rw [he]
  simp only [Bool.false_eq_true, if_false]
  split <;> rfl

theorem scanStep_snd_of (id1 id2 : Nat) (acc : Option Item × Option Item × List Item)
    (e : Item) (he : (e.ID == id2) = false ∨ (e.ID == id1) = true) :
    (scanStep id1 id2 acc e).2.1 = acc.2.1 := by
  unfold scanStep
  by_cases h1 : (e.ID == id1) = true
  · rw [if_pos h1]
  · rw [if_neg h1]
    rcases he with he | he
    · rw [he]
      simp only [Bool.false_eq_true, if_false]
    · exact absurd he h1

theorem scan_fst_none (id1 id2 : Nat) :
    ∀ (l : List Item) (acc : Option Item × Option Item × List Item),
      (∀ e ∈ l, (e.ID == id1) = false) →
      (l.foldl (scanStep id1 id2) acc).1 = acc.1 := by
  intro l
  induction l with
  | nil => intro acc _; rfl
  | cons e l ih =>
    intro acc h
    rw [List.foldl_cons, ih _ (fun f hf => h f (List.mem_cons_of_mem e hf)),
      scanStep_fst_of_ne id1 id2 acc e (h e (List.mem_cons_self e l))]

theorem scan_snd_none (id1 id2 : Nat) :
    ∀ (l : List Item) (acc : Option Item × Option Item × List Item),
      (∀ e ∈ l, (e.ID == id2) = false ∨ (e.ID == id1) = true) →
      (l.foldl (scanStep id1 id2) acc).2.1 = acc.2.1 := by
  intro l
  induction l with
  | nil => intro acc _; rfl
  | cons e l ih =>
    intro acc h
    rw [List.foldl_cons, ih _ (fun f hf => h f (List.mem_cons_of_mem e hf)),
      scanStep_snd_of id1 id2 acc e (h e (List.mem_cons_self e l))]

/-! ### Counting lemmas for the preserved entries -/

theorem filter_one_length (x : Nat) :
    ∀ (l : List Item), (l.map Item.ID).Nodup → x ∈ l.map Item.ID →
      (l.filter (fun e => !(e.ID == x))).length + 1 = l.length := by
  intro l
  induction l with
  | nil => intro _ h; simp at h
  | cons e l ih =>
    intro hnd hx
    rw [List.map_cons, List.nodup_cons] at hnd
    rcases List.mem_cons.mp hx with rfl | hmem
    · have hpe : (e.ID == e.ID) = true := beq_self_eq_true _
      have hall : l.filter (fun f => !(f.ID == e.ID)) = l := by
        apply List.filter_eq_self.mpr
        intro f hf
        have : f.ID ≠ e.ID := fun hEq => hnd.1 (hEq ▸ List.mem_map_of_mem Item.ID hf)
        simp [this]
      simp [List.filter_cons, hpe, hall]
    · have hne : e.ID ≠ x := fun hEq => hnd.1 (hEq ▸ hmem)
      have hpe : (e.ID == x) = false := beq_eq_false_iff_ne.mpr hne
      rw [List.filter_cons]
      simp only [hpe, Bool.not_false, if_true, List.length_cons]
      have := ih hnd.2 hmem
      omega

theorem filter_both_length (id1 id2 : Nat) :
    ∀ (l : List Item), (l.map Item.ID).Nodup → id1 ∈ l.map Item.ID →
      id2 ∈ l.map Item.ID → id1 ≠ id2 →
      (l.filter (fun e => !(e.ID == id1) && !(e.ID == id2))).length + 2 = l.length := by
  intro l
  induction l with
  | nil => intro _ h; simp at h
  | cons e l ih =>
    intro hnd h1 h2 hne
    rw [List.map_cons, List.nodup_cons] at hnd
    rcases List.mem_cons.mp h1 with rfl | hm1
    · have h2t : id2 ∈ l.map Item.ID := by
        rcases List.mem_cons.mp h2 with h | h
        · exact absurd h.symm hne
        · exact h
      have hpe : (e.ID == e.ID) = true := beq_self_eq_true _
      have hcong : l.filter (fun f => !(f.ID == e.ID) && !(f.ID == id2)) =
          l.filter (fun f => !(f.ID == id2)) := by
        apply List.filter_congr
        intro f hf
        have : f.ID ≠ e.ID := fun hEq => hnd.1 (hEq ▸ List.mem_map_of_mem Item.ID hf)
        simp [beq_eq_false_iff_ne.mpr this]
      rw [List.filter_cons]
      simp only [hpe, Bool.not_true, Bool.false_and, Bool.false_eq_true, if_false, hcong,
        List.length_cons]
      have := filter_one_length id2 l hnd.2 h2t
      omega
    · rcases List.mem_cons.mp h2 with rfl | hm2
      · have h1t : id1 ∈ l.map Item.ID := hm1
        have hpe : (e.ID == e.ID) = true := beq_self_eq_true _
        have hp1 : (e.ID == id1) = false :=
          beq_eq_false_iff_ne.mpr fun hEq => hnd.1 (hEq ▸ h1t)
        have hcong : l.filter (fun f => !(f.ID == id1) && !(f.ID == e.ID)) =
            l.filter (fun f => !(f.ID == id1)) := by
          apply List.filter_congr
          intro f hf
          have : f.ID ≠ e.ID := fun hEq => hnd.1 (hEq ▸ List.mem_map_of_mem Item.ID hf)
          simp [beq_eq_false_iff_ne.mpr this]
        rw [List.filter_cons]
        simp only [hpe, hp1, Bool.not_true, Bool.and_false, Bool.false_eq_true, if_false, hcong,
          List.length_cons]
        have := filter_one_length id1 l hnd.2 h1t
        omega
      · have hp1 : (e.ID == id1) = false :=
          beq_eq_false_iff_ne.mpr fun hEq => hnd.1 (hEq ▸ hm1)
        have hp2 : (e.ID == id2) = false :=
          beq_eq_false_iff_ne.mpr fun hEq => hnd.1 (hEq ▸ hm2)
        rw [List.filter_cons]
        simp only [hp1, hp2, Bool.not_false, Bool.and_self, if_true, List.length_cons]
        have := ih hnd.2 hm1 hm2 hne
        omega

/-! ### The deduplication invariant -/

theorem dedupLoop_spec :
    ∀ (l : List Item) (seen : List Nat),
      (∀ e ∈ dedupLoop l seen, e.ID ∉ seen) ∧
      ((dedupLoop l seen).map Item.ID).Nodup ∧
      (dedupLoop l seen).Sublist l := by
  intro l
  induction l with
  | nil => intro seen; simp [dedupLoop]
  | cons e l ih =>
    intro seen
    by_cases h : e.ID ∈ seen
    · rw [show dedupLoop (e :: l) seen = dedupLoop l seen by rw [dedupLoop, if_pos h]]
      exact ⟨(ih seen).1, (ih seen).2.1, (ih seen).2.2.cons e⟩
    · rw [show dedupLoop (e :: l) seen = e :: dedupLoop l (seen ++ [e.ID]) by
        rw [dedupLoop, if_neg h]]
      obtain ⟨ha, hb, hc⟩ := ih (seen ++ [e.ID])
      refine ⟨?_, ?_, hc.cons₂ e⟩
      · intro x hx
        rcases List.mem_cons.mp hx with rfl | hx'
        · exact h
        · intro hmem
          exact ha x hx' (List.mem_append_left _ hmem)
      · rw [List.map_cons, List.nodup_cons]
        refine ⟨?_, hb⟩
        intro hmem
        rcases List.mem_map.mp hmem with ⟨x, hx, hEq⟩
        exact ha x hx (hEq ▸ List.mem_append_right _ (List.mem_singleton_self _))

/-! ### Counter and created-ID invariants of the reaction loop -/

theorem stepPair_cur (st st' : ReactState) (p : Item × Item)
    (h : stepPair st p = .ok st') : st'.cur = st.cur + pairFragCount p := by
  unfold stepPair at h
  unfold pairFragCount
  by_cases hr : reacts p = true
  · simp only [hr, if_true] at h ⊢
    cases hc : cutSiteOf (if p.1.typeTag == "RestrictionEnzyme" then p.1 else p.2) with
    | none => rw [hc] at h; exact Except.noConfusion h
    | some site =>
      rw [hc] at h
      injection h with h
      rw [← h]
  · simp only [Bool.not_eq_true] at hr
    simp only [hr, Bool.false_eq_true, if_false] at h ⊢
    injection h with h
    rw [← h]
    rfl

theorem reactLoop_cur :
    ∀ (ps : List (Item × Item)) (st st' : ReactState),
      reactLoop ps st = .ok st' → st'.cur = st.cur + (ps.map pairFragCount).sum := by
  intro ps
  induction ps with
  | nil =>
    intro st st' h
    injection h with h
    rw [← h]; simp
  | cons p ps ih =>
    intro st st' h
    unfold reactLoop at h
    cases hs : stepPair st p with
    | error e => rw [hs] at h; exact Except.noConfusion h
    | ok st1 =>
      rw [hs] at h
      have h1 := stepPair_cur st st1 p hs
      have h2 := ih st1 st' h
      rw [h2, h1, List.map_cons, List.sum_cons]
      omega

/-- The invariant of the ghost `created` list relative to the pre-call
counter `c0`: strictly increasing, everything below the running counter,
and everything at or above `c0`. -/
def GoodFrom (c0 : Nat) (st : ReactState) : Prop :=
  List.Pairwise (· < ·) st.created ∧ (∀ x ∈ st.created, x < st.cur) ∧
    c0 ≤ st.cur ∧ (∀ x ∈ st.created, c0 ≤ x)

theorem stepPair_good (c0 : Nat) (st st' : ReactState) (p : Item × Item)
    (h : stepPair st p = .ok st') (hg : GoodFrom c0 st) : GoodFrom c0 st' := by
  obtain ⟨g1, g2, g3, g4⟩ := hg
  unfold stepPair at h
  by_cases hr : reacts p = true
  · simp only [hr, if_true] at h
    cases hc : cutSiteOf (if p.1.typeTag == "RestrictionEnzyme" then p.1 else p.2) with
    | none => rw [hc] at h; exact Except.noConfusion h
    | some site =>
      rw [hc] at h
      injection h with h
      rw [← h]
      set n := (digest site
        (if p.1.typeTag == "RestrictionEnzyme" then p.2 else p.1).seqAttr).length with hn
      refine ⟨?_, ?_, ?_, ?_⟩
      · apply List.pairwise_append.mpr
        refine ⟨g1, ?_, ?_⟩
        · exact (List.pairwise_lt_range n).map _ (fun a b hab => Nat.add_lt_add_left hab _)
        · intro x hx y hy
          rcases List.mem_map.mp hy with ⟨i, _, rfl⟩
          exact Nat.lt_of_lt_of_le (g2 x hx) (Nat.le_add_right _ _)
      · intro x hx
        rcases List.mem_append.mp hx with hx' | hx'
        · exact Nat.lt_of_lt_of_le (g2 x hx') (Nat.le_add_right _ _)
        · rcases List.mem_map.mp hx' with ⟨i, hi, rfl⟩
          exact Nat.add_lt_add_left (List.mem_range.mp hi) _
      · exact Nat.le_trans g3 (Nat.le_add_right _ _)
      · intro x hx
        rcases List.mem_append.mp hx with hx' | hx'
        · exact g4 x hx'
        · rcases List.mem_map.mp hx' with ⟨i, _, rfl⟩
          exact Nat.le_trans g3 (Nat.le_add_right _ _)
  · simp only [Bool.not_eq_true] at hr
    simp only [hr, Bool.false_eq_true, if_false] at h
    injection h with h
    rw [← h]
    exact ⟨g1, g2, g3, g4⟩

theorem reactLoop_good (c0 : Nat) :
    ∀ (ps : List (Item × Item)) (st st' : ReactState),
      reactLoop ps st = .ok st' → GoodFrom c0 st → GoodFrom c0 st' := by
  intro ps
  induction ps with
  | nil =>
    intro st st' h hg
    injection h with h
    rw [← h]; exact hg
  | cons p ps ih =>
    intro st st' h hg
    unfold reactLoop at h
    cases hs : stepPair st p with
    | error e => rw [hs] at h; exact Except.noConfusion h
    | ok st1 => rw [hs] at h; exact ih st1 st' h (stepPair_good c0 st st1 p hs hg)

/-! ### Digestion lemmas -/

theorem finditerAux_sound (pat s : List Char) :
    ∀ (fuel i j : Nat), j ∈ finditerAux pat s i fuel → isMatchAt pat s j = true := by
  intro fuel
  induction fuel with
  | zero => intro i j h; simp [finditerAux] at h
  | succ fuel ih =>
    intro i j h
    unfold finditerAux at h
    by_cases hi : i ≤ s.length
    · rw [if_pos hi] at h
      by_cases hm : isMatchAt pat s i = true
      · rw [if_pos hm] at h
        rcases List.mem_cons.mp h with rfl | h'
        · exact hm
        · exact ih _ _ h'
      · rw [if_neg hm] at h
        exact ih _ _ h
    · rw [if_neg hi] at h
      simp at h

theorem digest_no_match (pat s : List Char) (h : finditer pat s = []) :
    digest pat s = [s] := by
  unfold digest cutList
  rw [h]
  simp [pySlice, List.take_length]

/-! ### Reduction of combine once the operand scan is known -/

theorem combine_of_found (inv : Inventory) (id1 id2 : Nat) (i1 i2 : Item) (r : List Item)
    (hscan : scanEntries inv.items id1 id2 = (some i1, some i2, r)) :
    combine inv id1 id2 =
      match reactLoop (pairsOf (flattenOne i1 ++ flattenOne i2)) ⟨[], [], [], inv.curId⟩ with
      | Except.error _ => CombineOutcome.typeError
      | Except.ok st => CombineOutcome.ok ⟨st.cur + 1,
          r ++ [Item.mixture st.cur (dedup st.keep (st.strike.map Item.ID))]⟩ := by
  unfold combine
  rw [hscan]

theorem combineCreated_of_found (inv : Inventory) (id1 id2 : Nat) (i1 i2 : Item)
    (r : List Item)
    (hscan : scanEntries inv.items id1 id2 = (some i1, some i2, r)) :
    combineCreated inv id1 id2 =
      match reactLoop (pairsOf (flattenOne i1 ++ flattenOne i2)) ⟨[], [], [], inv.curId⟩ with
      | Except.error _ => none
      | Except.ok st => some (st.created ++ [st.cur]) := by
  unfold combineCreated
  rw [hscan]

/-! ### The claims -/

/-- Claim C1: refuted by the code — pairing a RestrictionEnzyme whose name
is not "EcoR1" with a DNA item is not a silent no-op.  The digestion branch
is entered with `cut_site = None` and reaches `re.finditer(None, dna_seq)`,
which raises an uncaught `TypeError`: the call crashes, no reply string is
produced, and the store is left unwritten, instead of completing normally
with both reactants kept. -/
theorem c1_unrecognizedEnzymeCrash :
    combine ⟨2, [Item.enzyme 0 "BamH1", Item.dna 1 "GAATTC".toList]⟩ 0 1 =
      CombineOutcome.typeError ∧
    combineReply ⟨2, [Item.enzyme 0 "BamH1", Item.dna 1 "GAATTC".toList]⟩ 0 1 = none ∧
    combineStore ⟨2, [Item.enzyme 0 "BamH1", Item.dna 1 "GAATTC".toList]⟩ 0 1 =
      ⟨2, [Item.enzyme 0 "BamH1", Item.dna 1 "GAATTC".toList]⟩ :=
  ⟨rfl, rfl, rfl⟩

/-- Claim C2: on an inventory with pairwise-distinct top-level IDs, a
successful combine of two distinct present IDs leaves every other
top-level item unchanged and in order (the result is the original list
filtered of the two operands) with exactly one new Mixture appended at the
end, and the top-level count drops by exactly one. -/
theorem c2_frameEffect (inv : Inventory) (id1 id2 : Nat) (inv' : Inventory)
    (hnd : (inv.items.map Item.ID).Nodup)
    (h1 : id1 ∈ inv.items.map Item.ID) (h2 : id2 ∈ inv.items.map Item.ID)
    (hne : id1 ≠ id2)
    (hok : combine inv id1 id2 = .ok inv') :
    (∃ m c, inv'.items =
        inv.items.filter (fun e => !(e.ID == id1) && !(e.ID == id2)) ++ [Item.mixture m c]) ∧
    inv'.items.length + 1 = inv.items.length := by
  rcases hscan : scanEntries inv.items id1 id2 with ⟨a, b, r⟩
  cases a with
  | none =>
    have hinv : combine inv id1 id2 = .invalidId := by
      unfold combine; rw [hscan]
    rw [hinv] at hok
    exact CombineOutcome.noConfusion hok
  | some i1 =>
    cases b with
    | none =>
      have hinv : combine inv id1 id2 = .invalidId := by
        unfold combine; rw [hscan]
      rw [hinv] at hok
      exact CombineOutcome.noConfusion hok
    | some i2 =>
      rw [combine_of_found inv id1 id2 i1 i2 r hscan] at hok
      cases hr : reactLoop (pairsOf (flattenOne i1 ++ flattenOne i2)) ⟨[], [], [], inv.curId⟩ with
      | error e => rw [hr] at hok; exact CombineOutcome.noConfusion hok
      | ok st =>
        rw [hr] at hok
        injection hok with hok
        have hrval : r = inv.items.filter (fun e => !(e.ID == id1) && !(e.ID == id2)) := by
          have hs := scan_rest id1 id2 inv.items (none, none, [])
          rw [show inv.items.foldl (scanStep id1 id2) (none, none, []) =
                scanEntries inv.items id1 id2 from rfl, hscan] at hs
          simpa using hs
        have hlen := filter_both_length id1 id2 inv.items hnd h1 h2 hne
        rw [← hok]
        constructor
        · exact ⟨st.cur, dedup st.keep (st.strike.map Item.ID), by rw [hrval]⟩
        · simp only [List.length_append, List.length_cons, List.length_nil]
          rw [hrval]
          omega

/-- Witness inventory for C2: two DNA strands around a reagent. -/
def w2inv : Inventory :=
  ⟨10, [Item.dna 0 ['A'], Item.reagent 5 "Water" "1 mL", Item.dna 1 ['C']]⟩

/-- Witness output for C2. -/
def w2out : Inventory :=
  ⟨11, [Item.reagent 5 "Water" "1 mL", Item.mixture 10 [Item.dna 0 ['A'], Item.dna 1 ['C']]]⟩

/-- Witness for C2: a concrete successful combine showing the frame
effect. -/
theorem c2_witness :
    combine w2inv 0 1 = .ok w2out ∧
    (∃ m c, w2out.items =
        w2inv.items.filter (fun e => !(e.ID == 0) && !(e.ID == 1)) ++ [Item.mixture m c]) ∧
    w2out.items.length + 1 = w2inv.items.length :=
  have h := c2_frameEffect w2inv 0 1 w2out (by decide) (by decide) (by decide) (by decide) rfl
  ⟨rfl, h.1, h.2⟩

/-- Claim C3: the counter written back by a successful combine equals the
pre-call counter plus the number of DNA fragments produced by all
digestions plus one for the wrapping Mixture. -/
theorem c3_counterAdvance (inv : Inventory) (id1 id2 : Nat) (i1 i2 : Item)
    (r : List Item) (inv' : Inventory)
    (hscan : scanEntries inv.items id1 id2 = (some i1, some i2, r))
    (hok : combine inv id1 id2 = .ok inv') :
    inv'.curId = inv.curId + totalFragments (flattenOne i1 ++ flattenOne i2) + 1 := by
  rw [combine_of_found inv id1 id2 i1 i2 r hscan] at hok
  cases hr : reactLoop (pairsOf (flattenOne i1 ++ flattenOne i2)) ⟨[], [], [], inv.curId⟩ with
  | error e => rw [hr] at hok; exact CombineOutcome.noConfusion hok
  | ok st =>
    rw [hr] at hok
    injection hok with hok
    have hc := reactLoop_cur (pairsOf (flattenOne i1 ++ flattenOne i2))
      ⟨[], [], [], inv.curId⟩ st hr
    rw [← hok]
    unfold totalFragments
    show st.cur + 1 = inv.curId + ((pairsOf (flattenOne i1 ++ flattenOne i2)).map pairFragCount).sum + 1
    rw [hc]

/-- Witness inventory for C3: EcoR1 digesting its own site. -/
def w3inv : Inventory := ⟨5, [Item.enzyme 0 "EcoR1", Item.dna 1 "GAATTC".toList]⟩

/-- Witness for C3: one digestion producing two fragments advances the
counter from 5 to 8 = 5 + 2 + 1. -/
theorem c3_witness :
    scanEntries w3inv.items 0 1 =
      (some (Item.enzyme 0 "EcoR1"), some (Item.dna 1 "GAATTC".toList), []) ∧
    combine w3inv 0 1 = .ok ⟨8, [Item.mixture 7 [Item.enzyme 0 "EcoR1",
      Item.dna 5 ['G'], Item.dna 6 "AATTC".toList]]⟩ ∧
    (8 : Nat) = w3inv.curId + totalFragments
      (flattenOne (Item.enzyme 0 "EcoR1") ++ flattenOne (Item.dna 1 "GAATTC".toList)) + 1 :=
  have h := c3_counterAdvance w3inv 0 1 (Item.enzyme 0 "EcoR1") (Item.dna 1 "GAATTC".toList) []
    ⟨8, [Item.mixture 7 [Item.enzyme 0 "EcoR1", Item.dna 5 ['G'], Item.dna 6 "AATTC".toList]]⟩
    rfl rfl
  ⟨rfl, rfl, h⟩

/-- Counterexample to Claim C4 as stated: with pre-call counter 5, the
digestion of "GAATTC" by EcoR1 creates items with IDs 5, 6 and 7 — the
first created ID equals the pre-call counter, so not every created ID is
strictly greater than it. -/
theorem c4_counterexample :
    combineCreated ⟨5, [Item.enzyme 0 "EcoR1", Item.dna 1 "GAATTC".toList]⟩ 0 1 =
      some [5, 6, 7] ∧
    ¬ (∀ x ∈ ([5, 6, 7] : List Nat), 5 < x) :=
  ⟨rfl, by decide⟩

/-- Claim C4, amended: within one successful combine the IDs of newly
created items, in creation order, are strictly increasing and every one is
greater than or equal to the pre-call counter (the first one equals it,
since the counter stores the next unused ID). -/
theorem c4_createdIds (inv : Inventory) (id1 id2 : Nat) (ids : List Nat)
    (h : combineCreated inv id1 id2 = some ids) :
    List.Pairwise (· < ·) ids ∧ ∀ x ∈ ids, inv.curId ≤ x := by
  rcases hscan : scanEntries inv.items id1 id2 with ⟨a, b, r⟩
  cases a with
  | none =>
    have hinv : combineCreated inv id1 id2 = none := by
      unfold combineCreated; rw [hscan]
    rw [hinv] at h
    exact Option.noConfusion h
  | some i1 =>
    cases b with
    | none =>
      have hinv : combineCreated inv id1 id2 = none := by
        unfold combineCreated; rw [hscan]
      rw [hinv] at h
      exact Option.noConfusion h
    | some i2 =>
      rw [combineCreated_of_found inv id1 id2 i1 i2 r hscan] at h
      cases hr : reactLoop (pairsOf (flattenOne i1 ++ flattenOne i2)) ⟨[], [], [], inv.curId⟩ with
      | error e => rw [hr] at h; exact Option.noConfusion h
      | ok st =>
        rw [hr] at h
        injection h with h
        have hg : GoodFrom inv.curId st :=
          reactLoop_good inv.curId _ _ st hr
            ⟨List.Pairwise.nil, by simp, Nat.le_refl _, by simp⟩
        obtain ⟨g1, g2, g3, g4⟩ := hg
        rw [← h]
        constructor
        · apply List.pairwise_append.mpr
          refine ⟨g1, List.pairwise_singleton _ _, ?_⟩
          intro x hx y hy
          rw [List.mem_singleton.mp hy]
          exact g2 x hx
        · intro x hx
          rcases List.mem_append.mp hx with hx' | hx'
          · exact g4 x hx'
          · rw [List.mem_singleton.mp hx']
            exact g3

/-- Witness for the amended C4 at the counterexample input: 5, 6, 7 is
strictly increasing and bounded below by the pre-call counter 5. -/
theorem c4_witness :
    combineCreated ⟨5, [Item.enzyme 0 "EcoR1", Item.dna 1 "GAATTC".toList]⟩ 0 1 =
      some [5, 6, 7] ∧
    List.Pairwise (· < ·) ([5, 6, 7] : List Nat) ∧
    ∀ x ∈ ([5, 6, 7] : List Nat), 5 ≤ x :=
  have h := c4_createdIds ⟨5, [Item.enzyme 0 "EcoR1", Item.dna 1 "GAATTC".toList]⟩ 0 1
    [5, 6, 7] rfl
  ⟨rfl, h.1, h.2⟩

/-- Claim C5: EcoR1 digestion — every reported match position is a genuine
occurrence of "GAATTC", a sequence with zero occurrences yields exactly one
fragment equal to the whole sequence, and on "AGAATTCTAGAATTCG" the matches
start at 1 and 9, the cut-point list is [0, 2, 10, 16], and the fragments
are "AG", "AATTCTAG", "AATTCG". -/
theorem c5_digestion :
    (∀ (s : List Char), ∀ j ∈ finditer ecoR1Site s, isMatchAt ecoR1Site s j = true) ∧
    (∀ s : List Char, finditer ecoR1Site s = [] → digest ecoR1Site s = [s]) ∧
    finditer ecoR1Site "AGAATTCTAGAATTCG".toList = [1, 9] ∧
    cutList ecoR1Site "AGAATTCTAGAATTCG".toList = [0, 2, 10, 16] ∧
    digest ecoR1Site "AGAATTCTAGAATTCG".toList =
      ["AG".toList, "AATTCTAG".toList, "AATTCG".toList] := by
  refine ⟨?_, ?_, rfl, rfl, rfl⟩
  · intro s j hj
    exact finditerAux_sound ecoR1Site s _ _ _ hj
  · intro s h
    exact digest_no_match ecoR1Site s h

/-- Witness for C5: the soundness part at position 1 of the example, and
the zero-occurrence part on "TTTT". -/
theorem c5_witness :
    isMatchAt ecoR1Site "AGAATTCTAGAATTCG".toList 1 = true ∧
    finditer ecoR1Site "TTTT".toList = [] ∧
    digest ecoR1Site "TTTT".toList = ["TTTT".toList] :=
  ⟨c5_digestion.1 "AGAATTCTAGAATTCG".toList 1 (by decide), rfl,
   c5_digestion.2.1 "TTTT".toList rfl⟩

/-- Claim C6: the deduplication pass never keeps a struck ID, keeps each ID
at most once, preserves first-seen order (the result is a sublist of the
keep-candidate list), and consequently the contents of the Mixture built by
any successful combine have pairwise-distinct IDs. -/
theorem c6_dedup (keep : List Item) (struck : List Nat) :
    (∀ e ∈ dedup keep struck, e.ID ∉ struck) ∧
    ((dedup keep struck).map Item.ID).Nodup ∧
    (dedup keep struck).Sublist keep ∧
    (∀ (inv : Inventory) (a b : Nat) (inv' : Inventory),
      combine inv a b = .ok inv' →
      ∃ m c, inv'.items.getLast? = some (Item.mixture m c) ∧ (c.map Item.ID).Nodup) := by
  obtain ⟨h1, h2, h3⟩ := dedupLoop_spec keep struck
  refine ⟨h1, h2, h3, ?_⟩
  intro inv a b inv' hok
  rcases hscan : scanEntries inv.items a b with ⟨x, y, r⟩
  cases x with
  | none =>
    have hinv : combine inv a b = .invalidId := by
      unfold combine; rw [hscan]
    rw [hinv] at hok
    exact CombineOutcome.noConfusion hok
  | some i1 =>
    cases y with
    | none =>
      have hinv : combine inv a b = .invalidId := by
        unfold combine; rw [hscan]
      rw [hinv] at hok
      exact CombineOutcome.noConfusion hok
    | some i2 =>
      rw [combine_of_found inv a b i1 i2 r hscan] at hok
      cases hr : reactLoop (pairsOf (flattenOne i1 ++ flattenOne i2)) ⟨[], [], [], inv.curId⟩ with
      | error e => rw [hr] at hok; exact CombineOutcome.noConfusion hok
      | ok st =>
        rw [hr] at hok
        injection hok with hok
        refine ⟨st.cur, dedup st.keep (st.strike.map Item.ID), ?_, ?_⟩
        · rw [← hok]
          exact List.getLast?_concat r
        · exact (dedupLoop_spec st.keep (st.strike.map Item.ID)).2.1

/-- Witness for C6: deduplicating a keep list with a struck ID and a
repeated proposal keeps only the first unstruck occurrence, and a concrete
successful combine ends with a Mixture of distinct IDs. -/
theorem c6_witness :
    (Item.dna 1 ['A']).ID ∉ ([2] : List Nat) ∧
    ((dedup [Item.dna 1 ['A'], Item.dna 2 ['C'], Item.dna 1 ['A']] [2]).map Item.ID).Nodup ∧
    (∃ m c,
      (⟨3, [Item.mixture 2 [Item.dna 0 ['A'], Item.dna 1 ['C']]]⟩ : Inventory).items.getLast? =
        some (Item.mixture m c) ∧ (c.map Item.ID).Nodup) :=
  have h := c6_dedup [Item.dna 1 ['A'], Item.dna 2 ['C'], Item.dna 1 ['A']] [2]
  ⟨h.1 (Item.dna 1 ['A'])
      (by rw [show dedup [Item.dna 1 ['A'], Item.dna 2 ['C'], Item.dna 1 ['A']] [2] =
            [Item.dna 1 ['A']] from rfl]
          exact List.mem_singleton_self _),
   h.2.1,
   h.2.2.2 ⟨2, [Item.dna 0 ['A'], Item.dna 1 ['C']]⟩ 0 1 _ rfl⟩

/-- Claim C7: when either requested ID matches no top-level item, combine
returns the invalid-ID outcome, the external store is unchanged, and the
descriptive failure message is the reply. -/
theorem c7_invalidId (inv : Inventory) (id1 id2 : Nat)
    (h : id1 ∉ inv.items.map Item.ID ∨ id2 ∉ inv.items.map Item.ID) :
    combine inv id1 id2 = .invalidId ∧ combineStore inv id1 id2 = inv ∧
      combineReply inv id1 id2 = some invalidMsg := by
  have hmain : combine inv id1 id2 = .invalidId := by
    unfold combine
    rcases hscan : scanEntries inv.items id1 id2 with ⟨a, b, r⟩
    rcases h with h | h
    · have ha : a = none := by
        have hs := scan_fst_none id1 id2 inv.items (none, none, [])
          (fun e he => beq_eq_false_iff_ne.mpr
            (fun hEq => h (hEq ▸ List.mem_map_of_mem Item.ID he)))
        rw [show inv.items.foldl (scanStep id1 id2) (none, none, []) =
              scanEntries inv.items id1 id2 from rfl, hscan] at hs
        exact hs
      subst ha
      cases b <;> rfl
    · have hb : b = none := by
        have hs := scan_snd_none id1 id2 inv.items (none, none, [])
          (fun e he => Or.inl (beq_eq_false_iff_ne.mpr
            (fun hEq => h (hEq ▸ List.mem_map_of_mem Item.ID he))))
        rw [show inv.items.foldl (scanStep id1 id2) (none, none, []) =
              scanEntries inv.items id1 id2 from rfl, hscan] at hs
        exact hs
      subst hb
      cases a <;> rfl
  refine ⟨hmain, ?_, ?_⟩
  · unfold combineStore
    rw [hmain]
  · unfold combineReply
    rw [hmain]

/-- Witness for C7: requesting the absent ID 999 fails and leaves the
store untouched. -/
theorem c7_witness :
    (999 ∉ ([Item.dna 1 ['A']].map Item.ID)) ∧
    combine ⟨2, [Item.dna 1 ['A']]⟩ 999 1 = .invalidId ∧
    combineStore ⟨2, [Item.dna 1 ['A']]⟩ 999 1 = ⟨2, [Item.dna 1 ['A']]⟩ ∧
    combineReply ⟨2, [Item.dna 1 ['A']]⟩ 999 1 = some invalidMsg :=
  have h := c7_invalidId ⟨2, [Item.dna 1 ['A']]⟩ 999 1 (Or.inl (by decide))
  ⟨by decide, h.1, h.2.1, h.2.2⟩

/-- Claim C8: a pair reacts only when its type tags are exactly one
RestrictionEnzyme and one DNA — a non-reacting pair only contributes its
two members as keep candidates — and an EcoR1/DNA pair, in either order,
creates one fresh DNA item per fragment with consecutive IDs from the
running counter, appends the fragments and the unmodified enzyme to the
keep candidates, and strikes the original strand. -/
theorem c8_pairReaction (st : ReactState) (p : Item × Item) (i j : Nat)
    (s s' : List Char) (n1 n2 : String) :
    (reacts p = false →
      stepPair st p = .ok ⟨st.keep ++ [p.1, p.2], st.strike, st.created, st.cur⟩) ∧
    reacts (Item.enzyme i n1, Item.enzyme j n2) = false ∧
    reacts (Item.dna i s, Item.dna j s') = false ∧
    reacts (Item.enzyme i n1, Item.dna j s) = true ∧
    reacts (Item.dna j s, Item.enzyme i n1) = true ∧
    stepPair st (Item.enzyme i "EcoR1", Item.dna j s) =
      .ok ⟨st.keep ++ [Item.enzyme i "EcoR1", Item.dna j s] ++
            (digest ecoR1Site s).enum.map (fun q => Item.dna (st.cur + q.1) q.2) ++
            [Item.enzyme i "EcoR1"],
          st.strike ++ [Item.dna j s],
          st.created ++ (List.range (digest ecoR1Site s).length).map (st.cur + ·),
          st.cur + (digest ecoR1Site s).length⟩ ∧
    stepPair st (Item.dna j s, Item.enzyme i "EcoR1") =
      .ok ⟨st.keep ++ [Item.dna j s, Item.enzyme i "EcoR1"] ++
            (digest ecoR1Site s).enum.map (fun q => Item.dna (st.cur + q.1) q.2) ++
            [Item.enzyme i "EcoR1"],
          st.strike ++ [Item.dna j s],
          st.created ++ (List.range (digest ecoR1Site s).length).map (st.cur + ·),
          st.cur + (digest ecoR1Site s).length⟩ := by
  refine ⟨?_, rfl, rfl, rfl, rfl, rfl, rfl⟩
  intro h
  unfold stepPair
  rw [h]
  rfl

/-- Witness for C8: two DNA strands do not react and pass through
unchanged. -/
theorem c8_witness :
    reacts (Item.dna 0 ['A'], Item.dna 1 ['C']) = false ∧
    stepPair ⟨[], [], [], 0⟩ (Item.dna 0 ['A'], Item.dna 1 ['C']) =
      .ok ⟨[Item.dna 0 ['A'], Item.dna 1 ['C']], [], [], 0⟩ :=
  have h := c8_pairReaction ⟨[], [], [], 0⟩ (Item.dna 0 ['A'], Item.dna 1 ['C'])
    2 3 ['G'] ['T'] "X" "Y"
  ⟨rfl, h.1 rfl⟩

/-- Claim C9: flattening returns a Mixture's contents verbatim and wraps
any non-Mixture item as a singleton, so flattening an already-flat Mixture
returns its contents unchanged and in order. -/
theorem c9_flatten (i : Nat) (c : List Item) (x : Item) :
    flattenOne (Item.mixture i c) = c ∧
    (x.typeTag ≠ "Mixture" → flattenOne x = [x]) := by
  refine ⟨rfl, fun h => ?_⟩
  cases x with
  | mixture a b => exact absurd rfl h
  | reagent a b c => rfl
  | dna a b => rfl
  | enzyme a b => rfl

/-- Witness for C9 on a one-strand Mixture and a bare DNA item. -/
theorem c9_witness :
    flattenOne (Item.mixture 0 [Item.dna 1 ['A']]) = [Item.dna 1 ['A']] ∧
    (Item.dna 1 ['A']).typeTag ≠ "Mixture" ∧
    flattenOne (Item.dna 1 ['A']) = [Item.dna 1 ['A']] :=
  have h := c9_flatten 0 [Item.dna 1 ['A']] (Item.dna 1 ['A'])
  ⟨h.1, by decide, h.2 (by decide)⟩

/-- Claim C10: combining an ID with itself always takes the invalid-ID
error path and leaves the store unchanged, even when the ID exists,
because the `elif` of the scan loop can never bind the second operand when
both requested IDs are equal. -/
theorem c10_selfCombine (inv : Inventory) (a : Nat) :
    combine inv a a = .invalidId ∧ combineStore inv a a = inv := by
  have hb : (scanEntries inv.items a a).2.1 = none := by
    apply scan_snd_none
    intro e _
    cases h : (e.ID == a) with
    | true => exact Or.inr rfl
    | false => exact Or.inl rfl
  have hmain : combine inv a a = .invalidId := by
    unfold combine
    rcases hscan : scanEntries inv.items a a with ⟨x, y, r⟩
    rw [hscan] at hb
    have hy : y = none := hb
    subst hy
    cases x <;> rfl
  refine ⟨hmain, ?_⟩
  unfold combineStore
  rw [hmain]

end LabSim
